import Mathlib

/-!
Shallow embedding of the KolamCreator feature-extraction and recreation
pipeline (src/image_rec.py and src/kolam_recreator.py).

Modelling conventions:
* Python floats are modelled exactly: pixel coordinates and derived
  quantities are rationals, and quantities involving square roots or pi
  (perimeter, circularity) live in the reals.
* A keypoint is its position (kp.pt); a contour is its list of integer
  pixel vertices.
* Functions that may return a Python error dictionary are modelled with
  Except String.
* Raster drawing is modelled by recording the draw operations performed on
  the initially all-zero (black) canvas: a canvas with no recorded
  operations is all-background.
-/

/-- A detected dot keypoint: its subpixel position (kp.pt). -/
structure Keypoint where
  x : ℚ
  y : ℚ
deriving DecidableEq

/-- A contour: an ordered list of integer pixel vertices, as produced by
cv2.findContours with CHAIN_APPROX_SIMPLE. -/
abbrev Contour := List (ℤ × ℤ)

/-- Inferred grid dimensions. -/
structure Grid where
  rows : ℕ
  cols : ℕ
deriving DecidableEq

/-- The structured summary returned by analyze_principles. -/
structure DesignPrinciples where
  dot_count : ℕ
  contour_count : ℕ
  grid : Grid
  is_symmetric : Bool
  dots : List (ℚ × ℚ)
deriving DecidableEq

/-- Number of clusters found by 1-D DBSCAN with neighbourhood radius
eps = 10 and min_samples = 1 (sklearn semantics: every point is a core
point, so clusters are the connected components of the graph joining
values at distance at most eps; on the sorted values these components
break exactly at consecutive gaps exceeding eps). -/
def clusterCount1D (vals : List ℚ) : ℕ :=
  let s := List.insertionSort (· ≤ ·) vals
  match s with
  | [] => 0
  | _ :: tail => 1 + (s.zip tail).countP fun p => decide (10 < p.2 - p.1)

/-- The clustering step of analyze_principles: DBSCAN on the y
coordinates gives the row count, DBSCAN on the x coordinates gives the
column count; a single dot skips clustering and yields a 1x1 grid. -/
def clusteredDims (kps : List Keypoint) : ℕ × ℕ :=
  if 1 < kps.length then
    (clusterCount1D (kps.map Keypoint.y), clusterCount1D (kps.map Keypoint.x))
  else (1, 1)

/-- Maximum of a list of rationals (np.max on a nonempty array; 0 on []). -/
def listMaxQ : List ℚ → ℚ
  | [] => 0
  | v :: vs => vs.foldl max v

/-- Minimum of a list of rationals (np.min on a nonempty array; 0 on []). -/
def listMinQ : List ℚ → ℚ
  | [] => 0
  | v :: vs => vs.foldl min v

/-- Coordinate span on one axis: np.max - np.min. -/
def spanQ (l : List ℚ) : ℚ := listMaxQ l - listMinQ l

/-- Grid inference of analyze_principles, including the square-grid
fallback applied when the clustered row count times the clustered column
count differs from the number of dots. -/
def gridWithFallback (kps : List Keypoint) : ℕ × ℕ :=
  let d := clusteredDims kps
  if d.1 * d.2 ≠ kps.length then
    let span_y := spanQ (kps.map Keypoint.y)
    let span_x := spanQ (kps.map Keypoint.x)
    if span_x < span_y then
      let num_rows := max d.1 d.2
      (num_rows, num_rows)
    else
      let num_cols := max d.1 d.2
      (num_cols, num_cols)
  else d

/-- Number of dots strictly left of the image's horizontal midline. -/
def leftDots (kps : List Keypoint) (width : ℕ) : ℕ :=
  kps.countP fun kp => decide (kp.x < (width : ℚ) / 2)

/-- Number of dots strictly right of the image's horizontal midline. -/
def rightDots (kps : List Keypoint) (width : ℕ) : ℕ :=
  kps.countP fun kp => decide ((width : ℚ) / 2 < kp.x)

/-- The symmetry heuristic: flagged symmetric iff the left/right count
imbalance is at most max(2, 0.1 * dot count). -/
def symFlag (kps : List Keypoint) (width : ℕ) : Bool :=
  decide ((|(leftDots kps width : ℤ) - (rightDots kps width : ℤ)| : ℚ) ≤
    max 2 ((kps.length : ℚ) * 0.1))

/-- analyze_principles (src/image_rec.py): consumes detected keypoints
(None or the empty list both yield the structured error), the detected
contours and the image shape (height, width), and assembles the
DesignPrinciples summary. -/
def analyze_principles (keypoints : Option (List Keypoint))
    (contours : Option (List Contour)) (image_shape : ℕ × ℕ) :
    Except String DesignPrinciples :=
  match keypoints with
  | none => .error "No dots to analyze."
  | some [] => .error "No dots to analyze."
  | some kps =>
    let g := gridWithFallback kps
    .ok
      { dot_count := kps.length
        contour_count := match contours with | none => 0 | some l => l.length
        grid := ⟨g.1, g.2⟩
        is_symmetric := symFlag kps image_shape.2
        dots := kps.map fun kp => (kp.x, kp.y) }

/-- Mirroring a dot pattern horizontally about the image midline (the
re-centred horizontal reflection x -> width - x). -/
def mirrorX (width : ℕ) (kps : List Keypoint) : List Keypoint :=
  kps.map fun kp => ⟨(width : ℚ) - kp.x, kp.y⟩

/-- The consecutive (cyclic) vertex pairs of a closed polygon: every edge
from a vertex to the next, the last vertex closing back to the first. -/
def cyclicPairs {α : Type} : List α → List (α × α)
  | [] => []
  | p :: ps => (p :: ps).zip (ps ++ [p])

/-- The cross-term accumulator of the polygon shoelace formula, shared by
cv2.contourArea and cv2.moments: sum over edges of xi * yj - xj * yi. -/
def crossSum (c : Contour) : ℤ :=
  ((cyclicPairs c).map fun pq => pq.1.1 * pq.2.2 - pq.2.1 * pq.1.2).sum

/-- The first-order x moment accumulator of cv2.moments on a polygon:
sum over edges of (xi * yj - xj * yi) * (xi + xj). -/
def crossSumX (c : Contour) : ℤ :=
  ((cyclicPairs c).map fun pq =>
    (pq.1.1 * pq.2.2 - pq.2.1 * pq.1.2) * (pq.1.1 + pq.2.1)).sum

/-- The first-order y moment accumulator of cv2.moments on a polygon:
sum over edges of (xi * yj - xj * yi) * (yi + yj). -/
def crossSumY (c : Contour) : ℤ :=
  ((cyclicPairs c).map fun pq =>
    (pq.1.1 * pq.2.2 - pq.2.1 * pq.1.2) * (pq.1.2 + pq.2.2)).sum

/-- cv2.contourArea with oriented=False: the absolute value of half the
shoelace cross sum. -/
def contourArea (c : Contour) : ℚ := |(crossSum c : ℚ)| / 2

/-- detect_contours (src/image_rec.py), from the boundary-tracing output
onward: cv2.findContours produces the raw contour list from the
thresholded image (opaque image processing, taken here as the function's
parameter); the function keeps exactly the raw contours of enclosed area
strictly above min_contour_area = 50. -/
def detect_contours (raw_contours : List Contour) : List Contour :=
  raw_contours.filter fun c => decide (50 < contourArea c)

/-- cv2.moments on a polygonal contour (contourMoments): Green-theorem
accumulators, normalized by the sign of the shoelace sum so m00 is the
nonnegative enclosed area; all moments are zero for a degenerate polygon
with zero shoelace sum. Returns (m00, m10, m01). -/
def contourMoments (c : Contour) : ℚ × ℚ × ℚ :=
  if crossSum c = 0 then (0, 0, 0)
  else if 0 < crossSum c then
    ((crossSum c : ℚ) / 2, (crossSumX c : ℚ) / 6, (crossSumY c : ℚ) / 6)
  else
    (-(crossSum c : ℚ) / 2, -(crossSumX c : ℚ) / 6, -(crossSumY c : ℚ) / 6)

/-- Python int() applied to a rational: truncation toward zero. -/
def ratTrunc (q : ℚ) : ℤ := q.num.tdiv (q.den : ℤ)

/-- cv2.arcLength with closed=True: the sum of the Euclidean lengths of
all (cyclic) edges of the polygon. -/
noncomputable def arcLength (c : Contour) : ℝ :=
  ((cyclicPairs c).map fun pq =>
    Real.sqrt (((pq.2.1 - pq.1.1 : ℤ) : ℝ) ^ 2 + ((pq.2.2 - pq.1.2 : ℤ) : ℝ) ^ 2)).sum

/-- Circularity of a contour: 4 * pi * Area / Perimeter ^ 2. -/
noncomputable def circularity (c : Contour) : ℝ :=
  4 * Real.pi * (contourArea c : ℝ) / (arcLength c * arcLength c)

open Classical in
/-- The per-contour decoration step of recreate_kolam: skip a contour
with zero perimeter; otherwise, when the contour is sufficiently circular
(circularity above 0.6) and its area lies strictly between 100 and 5000,
and its zeroth moment is nonzero, produce the integer centroid
(int(m10 / m00), int(m01 / m00)) at which a filled white dot of radius 2
is drawn; otherwise produce nothing. -/
noncomputable def decorationDot (c : Contour) : Option (ℤ × ℤ) :=
  if arcLength c = 0 then none
  else if circularity c > 0.6 ∧ 100 < contourArea c ∧ contourArea c < 5000 then
    if (contourMoments c).1 ≠ 0 then
      some (ratTrunc ((contourMoments c).2.1 / (contourMoments c).1),
            ratTrunc ((contourMoments c).2.2 / (contourMoments c).1))
    else none
  else none

/-- The recreated kolam raster, modelled by the draw operations applied
to the all-zero (black) canvas: the contours drawn as white anti-aliased
polylines of width 2, and the white radius-2 centroid decoration dots.
An image with no recorded strokes and no recorded dots is the untouched
all-background canvas. -/
structure RecreatedImage where
  height : ℕ
  width : ℕ
  channels : ℕ
  strokes : List Contour
  dots : List (ℤ × ℤ)
deriving DecidableEq

/-- A recreated image with no draw operations: every pixel still holds
the background value 0 of the freshly allocated canvas. -/
def RecreatedImage.isAllBackground (img : RecreatedImage) : Prop :=
  img.strokes = [] ∧ img.dots = []

/-- recreate_kolam (src/kolam_recreator.py): allocates a black canvas of
shape (height, width, 3), returns it untouched when the contour list is
None or empty, and otherwise draws all contours in white and adds the
centroid decoration dots of the contours passing the circularity and
size filter. -/
noncomputable def recreate_kolam (contours : Option (List Contour))
    (image_shape : ℕ × ℕ × ℕ) : RecreatedImage :=
  let height := image_shape.1
  let width := image_shape.2.1
  let recreated_img : RecreatedImage :=
    { height := height, width := width, channels := 3, strokes := [], dots := [] }
  match contours with
  | none => recreated_img
  | some cs =>
    if cs.isEmpty then recreated_img
    else { recreated_img with strokes := cs, dots := cs.filterMap decorationDot }

/-- A three-dot L-shaped pattern: axis-wise clustering finds 2 rows and
2 columns, but 2 * 2 is not the dot count 3, so the square-grid fallback
fires. Used as a concrete witness input. -/
def kpsFallback : List Keypoint := [⟨0, 0⟩, ⟨50, 0⟩, ⟨50, 50⟩]

/-- A single-dot pattern, used as a concrete witness input. -/
def kpsSingle : List Keypoint := [⟨2, 3⟩]

/-- An axis-aligned 20 x 20 square contour: enclosed area 400, perimeter
80, circularity pi / 4. Used as a concrete witness input. -/
def squareContour : Contour := [(0, 0), (20, 0), (20, 20), (0, 20)]

/-- The zeroth contour moment equals the enclosed contour area: both are
the absolute value of half the shoelace cross sum. -/
theorem contourMoments_fst_eq_area (c : Contour) :
    (contourMoments c).1 = contourArea c := by
  unfold contourMoments contourArea
  split_ifs with h1 h2
  · rw [h1]
    norm_num
  · rw [abs_of_pos (by exact_mod_cast h2)]
  · have h3 : crossSum c < 0 := by omega
    rw [abs_of_neg (by exact_mod_cast h3)]

/-- Mirroring about the midline turns the strictly-left dots into exactly
the strictly-right dots. -/
theorem leftDots_mirrorX (kps : List Keypoint) (width : ℕ) :
    leftDots (mirrorX width kps) width = rightDots kps width := by
  unfold leftDots rightDots mirrorX
  rw [List.countP_map]
  refine List.countP_congr fun kp _ => ?_
  simp only [Function.comp_apply, decide_eq_true_eq]
  constructor <;> intro h <;> [skip; skip] <;> linarith

/-- Mirroring about the midline turns the strictly-right dots into exactly
the strictly-left dots. -/
theorem rightDots_mirrorX (kps : List Keypoint) (width : ℕ) :
    rightDots (mirrorX width kps) width = leftDots kps width := by
  unfold leftDots rightDots mirrorX
  rw [List.countP_map]
  refine List.countP_congr fun kp _ => ?_
  simp only [Function.comp_apply, decide_eq_true_eq]
  constructor <;> intro h <;> linarith

/-- The symmetry flag is invariant under the horizontal mirror. -/
theorem symFlag_mirrorX (kps : List Keypoint) (width : ℕ) :
    symFlag (mirrorX width kps) width = symFlag kps width := by
  unfold symFlag
  rw [leftDots_mirrorX, rightDots_mirrorX]
  have hlen : (mirrorX width kps).length = kps.length := List.length_map _ _
  rw [hlen, decide_eq_decide, abs_sub_comm]

/-- C6: for an absent (None) or empty keypoint list, analyze_principles
returns the structured error payload with message "No dots to analyze."
instead of a DesignPrinciples structure, for every contour argument and
image shape, and (being a total function) raises no exception. -/
theorem analyze_principles_empty_error (contours : Option (List Contour))
    (image_shape : ℕ × ℕ) :
    analyze_principles none contours image_shape = .error "No dots to analyze." ∧
    analyze_principles (some []) contours image_shape = .error "No dots to analyze." :=
  ⟨rfl, rfl⟩

/-- C3: for every non-empty keypoint list, the is_symmetric flag of the
analyzer's result is true exactly when the absolute difference between
the number of dots strictly left of the image midline and the number of
dots strictly right of it is at most max(2, 0.10 * dot count). -/
theorem analyze_principles_symmetry_iff (kps : List Keypoint)
    (contours : Option (List Contour)) (image_shape : ℕ × ℕ) (hne : kps ≠ []) :
    ∃ dp, analyze_principles (some kps) contours image_shape = .ok dp ∧
      (dp.is_symmetric = true ↔
        (|((kps.countP fun kp => decide (kp.x < (image_shape.2 : ℚ) / 2)) : ℚ) -
            ((kps.countP fun kp => decide ((image_shape.2 : ℚ) / 2 < kp.x)) : ℚ)| ≤
          max 2 ((kps.length : ℚ) * 0.1))) := by
  match kps, hne with
  | kp :: rest, _ =>
    refine ⟨_, rfl, ?_⟩
    show symFlag (kp :: rest) image_shape.2 = true ↔ _
    unfold symFlag leftDots rightDots
    rw [decide_eq_true_eq]
    push_cast
    rfl

/-- C3 witness: the theorem applied to the single dot (1, 1) on a
4-pixel-wide image. -/
theorem analyze_principles_symmetry_iff_witness :
    ([(⟨1, 1⟩ : Keypoint)] ≠ []) ∧
    ∃ dp, analyze_principles (some [⟨1, 1⟩]) none (4, 4) = .ok dp ∧
      (dp.is_symmetric = true ↔
        (|(([(⟨1, 1⟩ : Keypoint)].countP fun kp => decide (kp.x < ((4 : ℕ) : ℚ) / 2)) : ℚ) -
            (([(⟨1, 1⟩ : Keypoint)].countP fun kp => decide (((4 : ℕ) : ℚ) / 2 < kp.x)) : ℚ)| ≤
          max 2 (([(⟨1, 1⟩ : Keypoint)].length : ℚ) * 0.1))) :=
  ⟨List.cons_ne_nil _ _,
    analyze_principles_symmetry_iff [⟨1, 1⟩] none (4, 4) (List.cons_ne_nil _ _)⟩

/-- C8: mirroring every dot horizontally about the image midline leaves
the truth value of the analyzer's is_symmetric flag unchanged. -/
theorem analyze_principles_mirror_invariant (kps : List Keypoint)
    (contours : Option (List Contour)) (height width : ℕ) (hne : kps ≠ []) :
    ∃ dp dp', analyze_principles (some kps) contours (height, width) = .ok dp ∧
      analyze_principles (some (mirrorX width kps)) contours (height, width) = .ok dp' ∧
      dp'.is_symmetric = dp.is_symmetric := by
  match kps, hne with
  | kp :: rest, _ =>
    refine ⟨_, _, rfl, rfl, ?_⟩
    show symFlag (mirrorX width (kp :: rest)) width = symFlag (kp :: rest) width
    exact symFlag_mirrorX (kp :: rest) width

/-- C8 witness: the theorem applied to the single dot (1, 1) on a
4-pixel-wide image. -/
theorem analyze_principles_mirror_invariant_witness :
    ([(⟨1, 1⟩ : Keypoint)] ≠ []) ∧
    ∃ dp dp', analyze_principles (some [⟨1, 1⟩]) none (4, 4) = .ok dp ∧
      analyze_principles (some (mirrorX 4 [⟨1, 1⟩])) none (4, 4) = .ok dp' ∧
      dp'.is_symmetric = dp.is_symmetric :=
  ⟨List.cons_ne_nil _ _,
    analyze_principles_mirror_invariant [⟨1, 1⟩] none 4 4 (List.cons_ne_nil _ _)⟩

/-- C1: whenever the clustered row count times the clustered column
count differs from the dot count, the returned grid is square with both
dimensions equal to the maximum of the two clustered counts, whichever
axis has the larger coordinate span. -/
theorem analyze_principles_fallback_square (kps : List Keypoint)
    (contours : Option (List Contour)) (image_shape : ℕ × ℕ) (hne : kps ≠ [])
    (hmismatch : (clusteredDims kps).1 * (clusteredDims kps).2 ≠ kps.length) :
    ∃ dp, analyze_principles (some kps) contours image_shape = .ok dp ∧
      dp.grid.rows = max (clusteredDims kps).1 (clusteredDims kps).2 ∧
      dp.grid.cols = max (clusteredDims kps).1 (clusteredDims kps).2 := by
  match kps, hne with
  | kp :: rest, _ =>
    have hg : gridWithFallback (kp :: rest) =
        (max (clusteredDims (kp :: rest)).1 (clusteredDims (kp :: rest)).2,
         max (clusteredDims (kp :: rest)).1 (clusteredDims (kp :: rest)).2) := by
      unfold gridWithFallback
      rw [if_pos hmismatch]
      dsimp only
      split_ifs <;> rfl
    refine ⟨_, rfl, ?_, ?_⟩
    · show (gridWithFallback (kp :: rest)).1 = _
      rw [hg]
    · show (gridWithFallback (kp :: rest)).2 = _
      rw [hg]

/-- C1 witness: the theorem applied to the L-shaped three-dot pattern,
whose clustered dimensions 2 x 2 disagree with the dot count 3. -/
theorem analyze_principles_fallback_square_witness :
    (kpsFallback ≠ []) ∧
    (clusteredDims kpsFallback).1 * (clusteredDims kpsFallback).2 ≠ kpsFallback.length ∧
    ∃ dp, analyze_principles (some kpsFallback) none (100, 100) = .ok dp ∧
      dp.grid.rows = max (clusteredDims kpsFallback).1 (clusteredDims kpsFallback).2 ∧
      dp.grid.cols = max (clusteredDims kpsFallback).1 (clusteredDims kpsFallback).2 := by
  have hne : kpsFallback ≠ [] := by simp [kpsFallback]
  have hdims : clusteredDims kpsFallback = (2, 2) := by
    norm_num [kpsFallback, clusteredDims, clusterCount1D, List.insertionSort,
      List.orderedInsert, List.countP, List.countP.go, List.zip, List.zipWith, List.map]
  have hmismatch :
      (clusteredDims kpsFallback).1 * (clusteredDims kpsFallback).2 ≠ kpsFallback.length := by
    rw [hdims]
    simp [kpsFallback]
  exact ⟨hne, hmismatch,
    analyze_principles_fallback_square kpsFallback none (100, 100) hne hmismatch⟩

/-- C10: a keypoint list with exactly one dot skips the clustering step
(the clustered dimensions are the 1 x 1 default), satisfies the
rectangular consistency check so the square-grid fallback is not
invoked, and yields grid rows = cols = 1 with dot_count 1. -/
theorem analyze_principles_single_dot (kps : List Keypoint)
    (contours : Option (List Contour)) (image_shape : ℕ × ℕ)
    (hlen : kps.length = 1) :
    clusteredDims kps = (1, 1) ∧
    (clusteredDims kps).1 * (clusteredDims kps).2 = kps.length ∧
    ∃ dp, analyze_principles (some kps) contours image_shape = .ok dp ∧
      dp.grid = ⟨1, 1⟩ ∧ dp.dot_count = 1 := by
  obtain ⟨kp, rfl⟩ := List.length_eq_one.mp hlen
  have hdims : clusteredDims [kp] = (1, 1) := by
    simp [clusteredDims]
  have hg : gridWithFallback [kp] = (1, 1) := by
    unfold gridWithFallback
    rw [hdims]
    norm_num
  refine ⟨hdims, by simp [hdims], _, rfl, ?_, rfl⟩
  show Grid.mk (gridWithFallback [kp]).1 (gridWithFallback [kp]).2 = ⟨1, 1⟩
  rw [hg]

/-- C10 witness: the theorem applied to the single dot (2, 3). -/
theorem analyze_principles_single_dot_witness :
    kpsSingle.length = 1 ∧
    (clusteredDims kpsSingle = (1, 1) ∧
      (clusteredDims kpsSingle).1 * (clusteredDims kpsSingle).2 = kpsSingle.length ∧
      ∃ dp, analyze_principles (some kpsSingle) none (8, 8) = .ok dp ∧
        dp.grid = ⟨1, 1⟩ ∧ dp.dot_count = 1) :=
  ⟨rfl, analyze_principles_single_dot kpsSingle none (8, 8) rfl⟩

/-- C4 counterexample: for the target shape (4, 4, 1) the recreated
image has 3 channels, not the requested 1, so the output shape does not
always match the input shape including its channel count. -/
theorem recreate_kolam_channels_counterexample :
    (recreate_kolam none (4, 4, 1)).channels = 3 ∧
    ¬ (recreate_kolam none (4, 4, 1)).channels = 1 := by
  refine ⟨rfl, fun h => ?_⟩
  have h3 : (3 : ℕ) = 1 := h
  omega

/-- C4 (amended): for every contour list and target shape, the recreated
image has the requested height and width but always exactly 3 channels;
its shape equals the source shape precisely when the source has 3
channels, as the data model guarantees for source images. -/
theorem recreate_kolam_shape (contours : Option (List Contour))
    (image_shape : ℕ × ℕ × ℕ) :
    (recreate_kolam contours image_shape).height = image_shape.1 ∧
    (recreate_kolam contours image_shape).width = image_shape.2.1 ∧
    (recreate_kolam contours image_shape).channels = 3 := by
  rcases contours with _ | cs
  · exact ⟨rfl, rfl, rfl⟩
  · refine ⟨?_, ?_, ?_⟩ <;>
    · simp only [recreate_kolam]
      split <;> rfl

/-- C7: on an absent (None) or empty contour list the Recreator returns
the untouched all-background canvas of the requested height and width:
no stroke and no decoration dot is ever drawn on it, and (being a total
function) no exception is raised. -/
theorem recreate_kolam_empty_all_background (image_shape : ℕ × ℕ × ℕ) :
    (recreate_kolam none image_shape).isAllBackground ∧
    (recreate_kolam (some []) image_shape).isAllBackground ∧
    (recreate_kolam none image_shape).height = image_shape.1 ∧
    (recreate_kolam none image_shape).width = image_shape.2.1 ∧
    (recreate_kolam (some []) image_shape).height = image_shape.1 ∧
    (recreate_kolam (some []) image_shape).width = image_shape.2.1 :=
  ⟨⟨rfl, rfl⟩, ⟨rfl, rfl⟩, rfl, rfl, rfl, rfl⟩

/-- C5: every contour in the Contour Detector's filtered output has
enclosed area strictly greater than 50, whatever raw contours the
boundary tracing produced. -/
theorem detect_contours_area_gt (raw_contours : List Contour) (c : Contour)
    (hmem : c ∈ detect_contours raw_contours) : 50 < contourArea c := by
  have h := (List.mem_filter.mp hmem).2
  exact of_decide_eq_true h

/-- The enclosed area of the 20 x 20 square contour is 400. -/
theorem contourArea_squareContour : contourArea squareContour = 400 := by
  norm_num [contourArea, crossSum, squareContour, cyclicPairs, List.zip,
    List.zipWith, List.map, List.sum_cons, List.sum_nil, abs_of_nonneg]

/-- C5 witness: the theorem applied to the singleton raw list holding
the 20 x 20 square contour, which survives the filter. -/
theorem detect_contours_area_gt_witness :
    squareContour ∈ detect_contours [squareContour] ∧
    50 < contourArea squareContour := by
  have hmem : squareContour ∈ detect_contours [squareContour] := by
    refine List.mem_filter.mpr ⟨List.mem_singleton_self _, ?_⟩
    rw [decide_eq_true_eq, contourArea_squareContour]
    norm_num
  exact ⟨hmem, detect_contours_area_gt [squareContour] squareContour hmem⟩

/-- C9: for every contour whose enclosed area exceeds 100 (in particular
every contour passing the decoration filter), the zeroth moment m00 both
equals the enclosed area and is nonzero, so the guarded centroid
divisions m10 / m00 and m01 / m00 are well-defined and the skip branch
of the m00 guard is unreachable. -/
theorem contourMoments_m00_nonzero (c : Contour) (harea : 100 < contourArea c) :
    (contourMoments c).1 = contourArea c ∧ (contourMoments c).1 ≠ 0 := by
  refine ⟨contourMoments_fst_eq_area c, ?_⟩
  rw [contourMoments_fst_eq_area c]
  have hpos : (0 : ℚ) < contourArea c := lt_trans (by norm_num) harea
  exact hpos.ne'

/-- C9 witness: the theorem applied to the 20 x 20 square contour of
area 400. -/
theorem contourMoments_m00_nonzero_witness :
    100 < contourArea squareContour ∧
    ((contourMoments squareContour).1 = contourArea squareContour ∧
      (contourMoments squareContour).1 ≠ 0) := by
  have harea : 100 < contourArea squareContour := by
    rw [contourArea_squareContour]
    norm_num
  exact ⟨harea, contourMoments_m00_nonzero squareContour harea⟩

/-- A nonzero-perimeter contour is decorated exactly when it passes the
circularity and size filter: the inner m00 guard is then automatically
satisfied, because an area above 100 forces a nonzero zeroth moment. -/
theorem decorationDot_isSome_iff (c : Contour) (hp : arcLength c ≠ 0) :
    (decorationDot c).isSome = true ↔
      (0.6 < 4 * Real.pi * (contourArea c : ℝ) / (arcLength c * arcLength c) ∧
        100 < contourArea c ∧ contourArea c < 5000) := by
  unfold decorationDot
  rw [if_neg hp]
  by_cases hcond : circularity c > 0.6 ∧ 100 < contourArea c ∧ contourArea c < 5000
  · rw [if_pos hcond]
    have hm : (contourMoments c).1 ≠ 0 := by
      rw [contourMoments_fst_eq_area]
      exact (lt_trans (by norm_num : (0 : ℚ) < 100) hcond.2.1).ne'
    rw [if_pos hm]
    simp only [Option.isSome_some, true_iff]
    exact hcond
  · rw [if_neg hcond]
    simp only [Option.isSome_none, Bool.false_eq_true, false_iff]
    exact hcond

/-- C2: the Recreator decorates each contour independently: the drawn
centroid dots are exactly the per-contour decoration results (so a
skipped contour never aborts the remaining ones); a contour with nonzero
perimeter receives its single filled centroid dot exactly when its
circularity 4 * pi * Area / Perimeter^2 exceeds 0.6 and its enclosed
area lies strictly between 100 and 5000; and a zero-perimeter contour is
always skipped with no decoration. -/
theorem recreate_kolam_decoration_iff (cs : List Contour)
    (image_shape : ℕ × ℕ × ℕ) (c : Contour) (hcs : cs ≠ [])
    (hp : arcLength c ≠ 0) :
    (recreate_kolam (some cs) image_shape).dots = cs.filterMap decorationDot ∧
    ((decorationDot c).isSome = true ↔
      (0.6 < 4 * Real.pi * (contourArea c : ℝ) / (arcLength c * arcLength c) ∧
        100 < contourArea c ∧ contourArea c < 5000)) ∧
    (∀ c0 : Contour, arcLength c0 = 0 → decorationDot c0 = none) := by
  refine ⟨?_, decorationDot_isSome_iff c hp, fun c0 h0 => ?_⟩
  · match cs, hcs with
    | c1 :: rest, _ => rfl
  · unfold decorationDot
    rw [if_pos h0]

/-- The perimeter of the 20 x 20 square contour is 80. -/
theorem arcLength_squareContour : arcLength squareContour = 80 := by
  have h400 : Real.sqrt 400 = 20 := by
    rw [show (400 : ℝ) = 20 ^ 2 by norm_num]
    exact Real.sqrt_sq (by norm_num)
  norm_num [arcLength, squareContour, cyclicPairs, List.zip, List.zipWith,
    List.map, List.sum_cons, List.sum_nil, h400]

/-- C2 witness: the theorem applied to the singleton contour list holding
the 20 x 20 square contour, whose perimeter 80 is nonzero. -/
theorem recreate_kolam_decoration_iff_witness :
    ([squareContour] ≠ []) ∧ arcLength squareContour ≠ 0 ∧
    ((recreate_kolam (some [squareContour]) (40, 40, 3)).dots =
        [squareContour].filterMap decorationDot ∧
      ((decorationDot squareContour).isSome = true ↔
        (0.6 < 4 * Real.pi * (contourArea squareContour : ℝ) /
            (arcLength squareContour * arcLength squareContour) ∧
          100 < contourArea squareContour ∧ contourArea squareContour < 5000)) ∧
      (∀ c0 : Contour, arcLength c0 = 0 → decorationDot c0 = none)) := by
  have hne : [squareContour] ≠ [] := List.cons_ne_nil _ _
  have hp : arcLength squareContour ≠ 0 := by
    rw [arcLength_squareContour]
    norm_num
  exact ⟨hne, hp,
    recreate_kolam_decoration_iff [squareContour] (40, 40, 3) squareContour hne hp⟩
